import Mathlib

/-!
Verification of the goph-keeper server core: a shallow embedding of the
gRPC storage/user handlers, the envelope-encryption utilities, the JWT
middleware and the owner-scoped repository queries, with theorems settling
the specification claims about them.

Conventions of the embedding:
* Go byte slices are `List Nat` with the byte bound `< 256` carried as a
  hypothesis where it matters; Go strings that are manipulated
  character-by-character (the encoded ciphertext) are `List Char`.
* Functions returning `(T, error)` become `Except`/`GoRes`; a Go runtime
  panic (index out of range, bad GCM nonce length) is an explicit
  `GoRes.panicked` outcome so that crashes are distinguishable from
  returned errors.
* Randomness (`crypto/rand`) is made explicit: the generated record key
  and the two GCM nonces are parameters of `encryptionData`, quantifying
  over every possible random draw.
* The AES-GCM primitive and the HMAC signature of the JWT library are
  external library code; they are modelled by executable functions that
  satisfy the library's documented contract (authenticated encryption
  with a keystream and a recomputable tag; a collision-free keyed
  signature), not by the bit-level ciphers themselves.
-/

namespace GophKeeper

/-- Outcome of a Go function call: a normal return value, a returned
`error`, or a runtime panic. -/
inductive GoRes (α : Type) where
  | ok (val : α)
  | err (msg : String)
  | panicked (msg : String)
deriving DecidableEq, Repr

/- ## base64 (model of Go encoding/base64 StdEncoding) -/

/-- The standard base64 alphabet used by `base64.StdEncoding`. -/
def b64chars : List Char :=
  "ABCDEFGHIJKLMNOPQRSTUVWXYZabcdefghijklmnopqrstuvwxyz0123456789+/".toList

/-- Map a 6-bit group to its base64 alphabet character. -/
def encB64 (n : Nat) : Char := b64chars.getD n 'A'

/-- Map a character back to its 6-bit value; `none` when the character is
not in the alphabet. -/
def decB64 (c : Char) : Option Nat := b64chars.findIdx? (· = c)

/-- Encode a byte list in base64, three bytes to four characters, with
`'='` padding exactly as `StdEncoding` produces it. -/
def encodeGroups : List Nat → List Char
  | [] => []
  | [b1] => [encB64 (b1 / 4), encB64 (b1 % 4 * 16), '=', '=']
  | [b1, b2] => [encB64 (b1 / 4), encB64 (b1 % 4 * 16 + b2 / 16), encB64 (b2 % 16 * 4), '=']
  | b1 :: b2 :: b3 :: rest =>
    encB64 (b1 / 4) :: encB64 (b1 % 4 * 16 + b2 / 16) ::
      encB64 (b2 % 16 * 4 + b3 / 64) :: encB64 (b3 % 64) :: encodeGroups rest

/-- Decode a base64 character list, four characters to three bytes,
accepting `'='` padding only at the very end; `none` on any malformed
input, as `StdEncoding.DecodeString` errors there. -/
def decodeGroups : List Char → Option (List Nat)
  | [] => some []
  | c1 :: c2 :: c3 :: c4 :: rest =>
    if c3 = '=' then
      if c4 = '=' ∧ rest = [] then
        match decB64 c1, decB64 c2 with
        | some n1, some n2 => some [n1 * 4 + n2 / 16]
        | _, _ => none
      else none
    else if c4 = '=' then
      if rest = [] then
        match decB64 c1, decB64 c2, decB64 c3 with
        | some n1, some n2, some n3 => some [n1 * 4 + n2 / 16, n2 % 16 * 16 + n3 / 4]
        | _, _, _ => none
      else none
    else
      match decB64 c1, decB64 c2, decB64 c3, decB64 c4, decodeGroups rest with
      | some n1, some n2, some n3, some n4, some tail =>
        some ((n1 * 4 + n2 / 16) :: (n2 % 16 * 16 + n3 / 4) :: (n3 % 4 * 64 + n4) :: tail)
      | _, _, _, _, _ => none
  | _ => none

theorem decB64_encB64_fin : ∀ m : Fin 64, decB64 (encB64 m.val) = some m.val := by decide

theorem decB64_encB64 {n : Nat} (h : n < 64) : decB64 (encB64 n) = some n :=
  decB64_encB64_fin ⟨n, h⟩

theorem encB64_ne_pad_fin : ∀ m : Fin 64, encB64 m.val ≠ '=' := by decide

theorem encB64_ne_pad {n : Nat} (h : n < 64) : encB64 n ≠ '=' :=
  encB64_ne_pad_fin ⟨n, h⟩

theorem encB64_ne_star_fin : ∀ m : Fin 64, encB64 m.val ≠ '*' := by decide

theorem encB64_ne_star (n : Nat) : encB64 n ≠ '*' := by
  rcases Nat.lt_or_ge n 64 with h | h
  · exact encB64_ne_star_fin ⟨n, h⟩
  · unfold encB64
    rw [List.getD_eq_default]
    · decide
    · exact h

theorem div_mul_add_lt (x y k : Nat) (hk : 0 < k) (hy : y < k) : (x * k + y) / k = x := by
  rw [Nat.add_comm, Nat.add_mul_div_right _ _ hk, Nat.div_eq_of_lt hy, Nat.zero_add]

theorem mod_mul_add_lt (x y k : Nat) (hy : y < k) : (x * k + y) % k = y := by
  rw [Nat.add_comm, Nat.add_mul_mod_self_right, Nat.mod_eq_of_lt hy]

/-- Base64 round trip: decoding an encoding recovers the bytes. -/
theorem decodeGroups_encodeGroups :
    ∀ bs : List Nat, (∀ b ∈ bs, b < 256) → decodeGroups (encodeGroups bs) = some bs
  | [], _ => by simp [encodeGroups, decodeGroups]
  | [b1], h => by
    have hb1 : b1 < 256 := h b1 (by simp)
    have h1 : b1 / 4 < 64 := by omega
    have h2 : b1 % 4 * 16 < 64 := by omega
    have eA : b1 / 4 * 4 + b1 % 4 * 16 / 16 = b1 := by
      rw [Nat.mul_div_cancel _ (by omega)]
      omega
    simp only [encodeGroups, decodeGroups, if_pos rfl, and_self, if_true,
      decB64_encB64 h1, decB64_encB64 h2, eA]
  | [b1, b2], h => by
    have hb1 : b1 < 256 := h b1 (by simp)
    have hb2 : b2 < 256 := h b2 (by simp)
    have h1 : b1 / 4 < 64 := by omega
    have h2 : b1 % 4 * 16 + b2 / 16 < 64 := by omega
    have h3 : b2 % 16 * 4 < 64 := by omega
    have eA : b1 / 4 * 4 + (b1 % 4 * 16 + b2 / 16) / 16 = b1 := by
      rw [div_mul_add_lt _ _ 16 (by omega) (by omega)]
      omega
    have eB : (b1 % 4 * 16 + b2 / 16) % 16 * 16 + b2 % 16 * 4 / 4 = b2 := by
      rw [mod_mul_add_lt _ _ 16 (by omega), Nat.mul_div_cancel _ (by omega)]
      omega
    simp only [encodeGroups, decodeGroups, if_neg (encB64_ne_pad h3), if_pos rfl, if_true,
      decB64_encB64 h1, decB64_encB64 h2, decB64_encB64 h3, eA, eB]
  | b1 :: b2 :: b3 :: rest, h => by
    have hb1 : b1 < 256 := h b1 (by simp)
    have hb2 : b2 < 256 := h b2 (by simp)
    have hb3 : b3 < 256 := h b3 (by simp)
    have h1 : b1 / 4 < 64 := by omega
    have h2 : b1 % 4 * 16 + b2 / 16 < 64 := by omega
    have h3 : b2 % 16 * 4 + b3 / 64 < 64 := by omega
    have h4 : b3 % 64 < 64 := by omega
    have eA : b1 / 4 * 4 + (b1 % 4 * 16 + b2 / 16) / 16 = b1 := by
      rw [div_mul_add_lt _ _ 16 (by omega) (by omega)]
      omega
    have eB : (b1 % 4 * 16 + b2 / 16) % 16 * 16 + (b2 % 16 * 4 + b3 / 64) / 4 = b2 := by
      rw [mod_mul_add_lt _ _ 16 (by omega), div_mul_add_lt _ _ 4 (by omega) (by omega)]
      omega
    have eC : (b2 % 16 * 4 + b3 / 64) % 4 * 64 + b3 % 64 = b3 := by
      rw [mod_mul_add_lt _ _ 4 (by omega)]
      omega
    have ih := decodeGroups_encodeGroups rest (fun b hb => h b (by simp [hb]))
    simp only [encodeGroups, decodeGroups, if_neg (encB64_ne_pad h3), if_neg (encB64_ne_pad h4),
      decB64_encB64 h1, decB64_encB64 h2, decB64_encB64 h3, decB64_encB64 h4, ih, eA, eB, eC]

/-- The base64 alphabet and the padding character never contain the
ciphertext separator. -/
theorem star_not_mem_encodeGroups : ∀ bs : List Nat, '*' ∉ encodeGroups bs
  | [] => by simp [encodeGroups]
  | [b1] => by
    simp only [encodeGroups, List.mem_cons, List.not_mem_nil, or_false, not_or]
    exact ⟨fun hh => encB64_ne_star _ hh.symm, fun hh => encB64_ne_star _ hh.symm,
      by decide, by decide⟩
  | [b1, b2] => by
    simp only [encodeGroups, List.mem_cons, List.not_mem_nil, or_false, not_or]
    exact ⟨fun hh => encB64_ne_star _ hh.symm, fun hh => encB64_ne_star _ hh.symm,
      fun hh => encB64_ne_star _ hh.symm, by decide⟩
  | b1 :: b2 :: b3 :: rest => by
    have ih := star_not_mem_encodeGroups rest
    simp only [encodeGroups, List.mem_cons, not_or]
    exact ⟨fun hh => encB64_ne_star _ hh.symm, fun hh => encB64_ne_star _ hh.symm,
      fun hh => encB64_ne_star _ hh.symm, fun hh => encB64_ne_star _ hh.symm, ih⟩

/- ## strings.Split for a one-character separator -/

/-- Model of Go `strings.Split(s, sep)` for a single-character separator:
always returns at least one piece, empty input giving `[[]]`. -/
def splitOnChar (sep : Char) : List Char → List (List Char)
  | [] => [[]]
  | c :: cs =>
    match splitOnChar sep cs with
    | [] => if c = sep then [[], []] else [[c]]
    | h :: t => if c = sep then [] :: h :: t else (c :: h) :: t

theorem splitOnChar_cons (sep c : Char) (cs : List Char) :
    splitOnChar sep (c :: cs) =
      match splitOnChar sep cs with
      | [] => if c = sep then [[], []] else [[c]]
      | h :: t => if c = sep then [] :: h :: t else (c :: h) :: t := rfl

theorem splitOnChar_ne_nil (sep : Char) : ∀ s : List Char, splitOnChar sep s ≠ []
  | [] => by simp [splitOnChar]
  | c :: cs => by
    have ih := splitOnChar_ne_nil sep cs
    rw [splitOnChar_cons]
    rcases hs : splitOnChar sep cs with _ | ⟨h, t⟩
    · exact absurd hs ih
    · by_cases hc : c = sep <;> simp [hc]

theorem splitOnChar_not_mem (sep : Char) :
    ∀ s : List Char, sep ∉ s → splitOnChar sep s = [s]
  | [], _ => rfl
  | c :: cs, h => by
    have hc : c ≠ sep := fun hh => h (by simp [hh])
    have ih := splitOnChar_not_mem sep cs (fun hh => h (by simp [hh]))
    rw [splitOnChar_cons, ih]
    simp [hc]

theorem splitOnChar_append (sep : Char) :
    ∀ s1 s2 : List Char, sep ∉ s1 →
      splitOnChar sep (s1 ++ sep :: s2) = s1 :: splitOnChar sep s2
  | [], s2, _ => by
    show splitOnChar sep (sep :: s2) = _
    rw [splitOnChar_cons]
    rcases hs : splitOnChar sep s2 with _ | ⟨h, t⟩
    · exact absurd hs (splitOnChar_ne_nil sep s2)
    · simp
  | c :: cs, s2, h => by
    have hc : c ≠ sep := fun hh => h (by simp [hh])
    have ih := splitOnChar_append sep cs s2 (fun hh => h (by simp [hh]))
    show splitOnChar sep (c :: (cs ++ sep :: s2)) = _
    rw [splitOnChar_cons, ih]
    simp [hc]

/-- Splitting `a ++ "*" ++ b` on the separator yields exactly the two
separator-free pieces. -/
theorem splitOnChar_two (sep : Char) (s1 s2 : List Char) (h1 : sep ∉ s1) (h2 : sep ∉ s2) :
    splitOnChar sep (s1 ++ sep :: s2) = [s1, s2] := by
  rw [splitOnChar_append sep s1 s2 h1, splitOnChar_not_mem sep s2 h2]

/- ## AES-GCM (model of crypto/aes + cipher.NewGCM) -/

/-- GCM nonce size in bytes (`aesgcm.NonceSize()`). -/
def gcmNonceSize : Nat := 12

/-- GCM authentication tag size in bytes. -/
def gcmTagSize : Nat := 16

/-- `aes.NewCipher` succeeds exactly for 16, 24 or 32 byte keys. -/
def aesKeyLenOk (key : List Nat) : Bool :=
  key.length = 16 || key.length = 24 || key.length = 32

/-- Model keyed pseudorandom byte stream underlying the authenticated
cipher: one byte per index, determined by key and nonce. -/
def gcmMix (key nonce : List Nat) (i : Nat) : Nat :=
  (key.foldl (fun a b => a * 31 + b) 7 + nonce.foldl (fun a b => a * 37 + b) 11 + i * 131) % 256

/-- Keystream of `n` bytes for the given key and nonce. -/
def gcmKeystream (key nonce : List Nat) (n : Nat) : List Nat :=
  (List.range n).map (gcmMix key nonce)

/-- Model authentication tag over key, nonce and ciphertext. -/
def gcmTag (key nonce ct : List Nat) : List Nat :=
  (List.range gcmTagSize).map
    (fun i => (gcmMix key nonce i + ct.foldl (fun a b => a * 33 + b) 5 + i * 17) % 256)

/-- Model of `aesgcm.Seal(nil, nonce, plaintext, nil)`: ciphertext
(plaintext masked by the keystream) followed by the tag. -/
def gcmSeal (key nonce pt : List Nat) : List Nat :=
  List.zipWith (fun a b => a ^^^ b) pt (gcmKeystream key nonce pt.length)
    ++ gcmTag key nonce (List.zipWith (fun a b => a ^^^ b) pt (gcmKeystream key nonce pt.length))

/-- Model of `aesgcm.Open(nil, nonce, data, nil)`: check length and tag,
then unmask; `none` is the authentication/decryption error. -/
def gcmOpen (key nonce data : List Nat) : Option (List Nat) :=
  if data.length < gcmTagSize then none
  else if data.drop (data.length - gcmTagSize)
      = gcmTag key nonce (data.take (data.length - gcmTagSize)) then
    some (List.zipWith (fun a b => a ^^^ b) (data.take (data.length - gcmTagSize))
      (gcmKeystream key nonce (data.take (data.length - gcmTagSize)).length))
  else none

theorem zipWith_xor_cancel :
    ∀ l ks : List Nat, l.length = ks.length →
      List.zipWith (fun a b => a ^^^ b) (List.zipWith (fun a b => a ^^^ b) l ks) ks = l
  | [], [], _ => rfl
  | [], k :: ks, h => by simp at h
  | a :: l, [], h => by simp at h
  | a :: l, k :: ks, h => by
    have ih := zipWith_xor_cancel l ks (by simpa using h)
    simp only [List.zipWith_cons_cons, ih, List.cons.injEq, and_true]
    exact Nat.xor_cancel_right k a

theorem gcmKeystream_length (key nonce : List Nat) (n : Nat) :
    (gcmKeystream key nonce n).length = n := by
  simp [gcmKeystream]

theorem gcmSeal_ct_length (key nonce pt : List Nat) :
    (List.zipWith (fun a b => a ^^^ b) pt (gcmKeystream key nonce pt.length)).length
      = pt.length := by
  simp [List.length_zipWith, gcmKeystream_length]

theorem gcmTag_length (key nonce ct : List Nat) : (gcmTag key nonce ct).length = gcmTagSize := by
  simp [gcmTag]

/-- Opening a ciphertext carrying its own recomputed tag succeeds and
unmasks it. -/
theorem gcmOpen_append (key nonce ct : List Nat) :
    gcmOpen key nonce (ct ++ gcmTag key nonce ct)
      = some (List.zipWith (fun a b => a ^^^ b) ct (gcmKeystream key nonce ct.length)) := by
  have hlen : (ct ++ gcmTag key nonce ct).length = ct.length + gcmTagSize := by
    simp [List.length_append, gcmTag_length]
  have htag : gcmTagSize = 16 := rfl
  unfold gcmOpen
  simp only [hlen, Nat.add_sub_cancel]
  rw [if_neg (by omega)]
  rw [List.drop_left, List.take_left, if_pos rfl]

/-- The authenticated-encryption contract: opening a sealed message with
the same key and nonce recovers the plaintext. -/
theorem gcmOpen_gcmSeal (key nonce pt : List Nat) :
    gcmOpen key nonce (gcmSeal key nonce pt) = some pt := by
  rw [gcmSeal, gcmOpen_append, gcmSeal_ct_length,
    zipWith_xor_cancel pt (gcmKeystream key nonce pt.length)
      (by rw [gcmKeystream_length])]

theorem gcmMix_lt (key nonce : List Nat) (i : Nat) : gcmMix key nonce i < 256 :=
  Nat.mod_lt _ (by omega)

theorem gcmKeystream_bytes (key nonce : List Nat) (n : Nat) :
    ∀ b ∈ gcmKeystream key nonce n, b < 256 := by
  intro b hb
  rcases List.mem_map.mp hb with ⟨i, _, rfl⟩
  exact gcmMix_lt key nonce i

theorem gcmTag_bytes (key nonce ct : List Nat) : ∀ b ∈ gcmTag key nonce ct, b < 256 := by
  intro b hb
  rcases List.mem_map.mp hb with ⟨i, _, rfl⟩
  exact Nat.mod_lt _ (by omega)

theorem zipWith_xor_bytes :
    ∀ l ks : List Nat, (∀ b ∈ l, b < 256) → (∀ b ∈ ks, b < 256) →
      ∀ b ∈ List.zipWith (fun a b => a ^^^ b) l ks, b < 256
  | [], _, _, _ => by simp
  | _ :: _, [], _, _ => by simp
  | a :: l, k :: ks, hl, hk => by
    intro b hb
    rcases List.mem_cons.mp hb with rfl | hb
    · have ha : a < 2 ^ 8 := hl a (by simp)
      have hkk : k < 2 ^ 8 := hk k (by simp)
      exact Nat.xor_lt_two_pow ha hkk
    · exact zipWith_xor_bytes l ks (fun x hx => hl x (by simp [hx]))
        (fun x hx => hk x (by simp [hx])) b hb

/-- Every byte of a sealed message is a byte (needed for the base64
round trip over the ciphertext). -/
theorem gcmSeal_bytes (key nonce pt : List Nat) (hpt : ∀ b ∈ pt, b < 256) :
    ∀ b ∈ gcmSeal key nonce pt, b < 256 := by
  intro b hb
  unfold gcmSeal at hb
  rcases List.mem_append.mp hb with hb | hb
  · exact zipWith_xor_bytes pt _ hpt (gcmKeystream_bytes key nonce pt.length) b hb
  · exact gcmTag_bytes key nonce _ b hb

/- ## The crypto utilities of the storage handler -/

/-- Length of the generated per-record key (`sizeRandomKey`). -/
def sizeRandomKey : Nat := 16

/-- `adjustKeySize`: truncate a key longer than the desired size, keep a
shorter or equal key unchanged. -/
def adjustKeySize (originalKey : List Nat) (desiredSize : Nat) : List Nat :=
  if originalKey.length > desiredSize then originalKey.take desiredSize else originalKey

/-- `encrypt(key, plaintext)`: adjust the key, build the AES-GCM cipher,
seal under the given nonce (the random draw made explicit), and encode as
`base64(nonce) ++ "*" ++ base64(ciphertext)`. -/
def encrypt (key nonce pt : List Nat) : GoRes (List Char) :=
  if aesKeyLenOk (adjustKeySize key sizeRandomKey) = false then
    .err "failed to create AES cipher"
  else if nonce.length ≠ gcmNonceSize then
    .panicked "crypto cipher: incorrect nonce length given to GCM"
  else
    .ok (encodeGroups nonce ++ '*' ::
      encodeGroups (gcmSeal (adjustKeySize key sizeRandomKey) nonce pt))

/-- `decrypt(key, plaintext)`: split on `"*"`, base64-decode the nonce,
access the second piece (a runtime panic when the separator is absent),
base64-decode the ciphertext, adjust the key and open. -/
def decrypt (key : List Nat) (ciphertext : List Char) : GoRes (List Nat) :=
  match decodeGroups ((splitOnChar '*' ciphertext).headD []) with
  | none => .err "failed decode base64"
  | some decNonce =>
    match (splitOnChar '*' ciphertext)[1]? with
    | none => .panicked "runtime error: index out of range"
    | some second =>
      match decodeGroups second with
      | none => .err "failed decode base64"
      | some decString =>
        if aesKeyLenOk (adjustKeySize key sizeRandomKey) = false then
          .err "failed to create AES cipher"
        else if decNonce.length ≠ gcmNonceSize then
          .panicked "crypto cipher: incorrect nonce length given to GCM"
        else
          match gcmOpen (adjustKeySize key sizeRandomKey) decNonce decString with
          | none => .err "failed open decrypts"
          | some dst => .ok dst

/-- `encryptionData(mk, data)`: generate a random record key, wrap it
under the master key, then encrypt the data under the record key. The
random draws (record key, the nonce of each `encrypt` call) are explicit
parameters. Returns `(encData, encKey)`. -/
def encryptionData (mk data rkey n1 n2 : List Nat) : GoRes (List Char × List Char) :=
  match encrypt mk n1 rkey with
  | .err e => .err ("failed encript key: " ++ e)
  | .panicked m => .panicked m
  | .ok encKey =>
    match encrypt rkey n2 data with
    | .err e => .err ("failed encript data: " ++ e)
    | .panicked m => .panicked m
    | .ok encData => .ok (encData, encKey)

/-- `decryptionData(mk, key, data)`: unwrap the record key with the
master key, then decrypt the data with it. -/
def decryptionData (mk : List Nat) (key data : List Char) : GoRes (List Nat) :=
  match decrypt mk key with
  | .err e => .err ("failed decrypt key: " ++ e)
  | .panicked m => .panicked m
  | .ok decKey =>
    match decrypt decKey data with
    | .err e => .err ("failed decrypt data: " ++ e)
    | .panicked m => .panicked m
    | .ok decData => .ok decData

theorem adjustKeySize_length_16 (k : List Nat) (h : 16 ≤ k.length) :
    (adjustKeySize k sizeRandomKey).length = 16 := by
  unfold adjustKeySize sizeRandomKey
  by_cases hk : k.length > 16 <;> simp [hk] <;> omega

theorem adjustKeySize_id (k : List Nat) (h : k.length ≤ 16) :
    adjustKeySize k sizeRandomKey = k := by
  unfold adjustKeySize sizeRandomKey
  rw [if_neg (by omega)]

theorem aesKeyLenOk_of_16 (k : List Nat) (h : k.length = 16) : aesKeyLenOk k = true := by
  simp [aesKeyLenOk, h]

theorem encrypt_ok (key nonce pt : List Nat)
    (hk : (adjustKeySize key sizeRandomKey).length = 16) (hn : nonce.length = gcmNonceSize) :
    encrypt key nonce pt = .ok (encodeGroups nonce ++ '*' ::
      encodeGroups (gcmSeal (adjustKeySize key sizeRandomKey) nonce pt)) := by
  unfold encrypt
  rw [aesKeyLenOk_of_16 _ hk]
  simp [hn]

/-- Decrypting the exact string `encrypt` produced, with a key whose
adjusted form matches, recovers the plaintext. -/
theorem decrypt_encrypt (key nonce pt : List Nat)
    (hk : (adjustKeySize key sizeRandomKey).length = 16)
    (hn : nonce.length = gcmNonceSize) (hnb : ∀ b ∈ nonce, b < 256)
    (hpt : ∀ b ∈ pt, b < 256) :
    decrypt key (encodeGroups nonce ++ '*' ::
      encodeGroups (gcmSeal (adjustKeySize key sizeRandomKey) nonce pt)) = .ok pt := by
  unfold decrypt
  rw [splitOnChar_two '*' _ _ (star_not_mem_encodeGroups nonce)
    (star_not_mem_encodeGroups _)]
  simp only [List.headD_cons, List.getElem?_cons_succ, List.getElem?_cons_zero]
  rw [decodeGroups_encodeGroups nonce hnb,
    decodeGroups_encodeGroups _ (gcmSeal_bytes _ nonce pt hpt)]
  rw [aesKeyLenOk_of_16 _ hk]
  simp only [Bool.true_eq_false, if_false, hn, ite_not, if_pos rfl, ne_eq,
    not_true_eq_false, if_neg]
  rw [gcmOpen_gcmSeal]

/- ## Claim C1: envelope-encryption round trip -/

/-- C1: for every byte sequence `p` and every master key of 16 bytes or
longer, and for every random record key and nonces drawn during
encryption, decrypting the pair produced by `encryptionData` with the
same master key returns `p`. -/
theorem C1_envelope_roundtrip (mk p rkey n1 n2 : List Nat) (encData encKey : List Char)
    (hmk : 16 ≤ mk.length)
    (hp : ∀ b ∈ p, b < 256)
    (hrl : rkey.length = sizeRandomKey) (hrb : ∀ b ∈ rkey, b < 256)
    (hn1 : n1.length = gcmNonceSize) (hn1b : ∀ b ∈ n1, b < 256)
    (hn2 : n2.length = gcmNonceSize) (hn2b : ∀ b ∈ n2, b < 256)
    (henc : encryptionData mk p rkey n1 n2 = .ok (encData, encKey)) :
    decryptionData mk encKey encData = .ok p := by
  have hmk16 : (adjustKeySize mk sizeRandomKey).length = 16 := adjustKeySize_length_16 mk hmk
  have hr16 : (adjustKeySize rkey sizeRandomKey).length = 16 := by
    rw [adjustKeySize_id rkey (by rw [hrl]; exact Nat.le.refl)]
    exact hrl
  unfold encryptionData at henc
  rw [encrypt_ok mk n1 rkey hmk16 hn1, encrypt_ok rkey n2 p hr16 hn2] at henc
  simp only [GoRes.ok.injEq, Prod.mk.injEq] at henc
  obtain ⟨rfl, rfl⟩ := henc
  unfold decryptionData
  simp only [decrypt_encrypt mk n1 rkey hmk16 hn1 hn1b hrb]
  simp only [decrypt_encrypt rkey n2 p hr16 hn2 hn2b hp]

/-- Concrete master key for evaluating the crypto path. -/
def wMK : List Nat := [90, 91, 92, 93, 94, 95, 96, 97, 98, 99, 100, 101, 102, 103, 104, 105]

/-- Concrete plaintext bytes of the string `hello`. -/
def wP : List Nat := [104, 101, 108, 108, 111]

/-- Concrete random record key. -/
def wRK : List Nat := [1, 2, 3, 4, 5, 6, 7, 8, 9, 10, 11, 12, 13, 14, 15, 16]

/-- Concrete nonce for wrapping the record key. -/
def wN1 : List Nat := [21, 22, 23, 24, 25, 26, 27, 28, 29, 30, 31, 32]

/-- Concrete nonce for encrypting the data. -/
def wN2 : List Nat := [41, 42, 43, 44, 45, 46, 47, 48, 49, 50, 51, 52]

/-- The concrete (ciphertext, wrapped key) pair produced by the write
path on the concrete inputs. -/
def wEnc : List Char × List Char :=
  match encryptionData wMK wP wRK wN1 wN2 with
  | .ok pr => pr
  | _ => ([], [])

/-- C1 witness: the round trip evaluated on concrete inputs. -/
theorem C1_envelope_roundtrip_witness : decryptionData wMK wEnc.2 wEnc.1 = .ok wP :=
  C1_envelope_roundtrip wMK wP wRK wN1 wN2 wEnc.1 wEnc.2
    (by decide) (by decide) (by decide) (by decide) (by decide) (by decide)
    (by decide) (by decide) (by decide)

/- ## Claim C8: key-length normalization -/

/-- C8: the key normalization returns exactly the first 16 bytes of a
longer key and leaves a key of 16 bytes or shorter unchanged, and both
`encrypt` and `decrypt` act on the normalized key — the identical
normalization applies to the master key and to record keys, since both
pass through the same `encrypt`/`decrypt` calls. -/
theorem C8_adjustKeySize (key : List Nat) :
    (16 < key.length → adjustKeySize key sizeRandomKey = key.take 16)
    ∧ (key.length ≤ 16 → adjustKeySize key sizeRandomKey = key)
    ∧ (∀ nonce pt, encrypt key nonce pt = encrypt (adjustKeySize key sizeRandomKey) nonce pt)
    ∧ (∀ s, decrypt key s = decrypt (adjustKeySize key sizeRandomKey) s) := by
  have hidem : adjustKeySize (adjustKeySize key sizeRandomKey) sizeRandomKey
      = adjustKeySize key sizeRandomKey := by
    apply adjustKeySize_id
    unfold adjustKeySize sizeRandomKey
    by_cases hk : key.length > 16
    · simp [hk]
    · simp [hk]
      omega
  refine ⟨fun h => ?_, fun h => ?_, fun nonce pt => ?_, fun s => ?_⟩
  · unfold adjustKeySize sizeRandomKey
    rw [if_pos (by omega)]
  · exact adjustKeySize_id key h
  · unfold encrypt
    rw [hidem]
  · unfold decrypt
    rw [hidem]

/-- C8 witness: the normalization evaluated on a 20-byte key and on a
3-byte key. -/
theorem C8_adjustKeySize_witness :
    adjustKeySize [0, 1, 2, 3, 4, 5, 6, 7, 8, 9, 10, 11, 12, 13, 14, 15, 16, 17, 18, 19]
        sizeRandomKey
      = [0, 1, 2, 3, 4, 5, 6, 7, 8, 9, 10, 11, 12, 13, 14, 15]
    ∧ adjustKeySize [7, 8, 9] sizeRandomKey = [7, 8, 9] :=
  ⟨by rw [(C8_adjustKeySize _).1 (by decide)]; decide,
   by rw [(C8_adjustKeySize _).2.1 (by decide)]⟩

/- ## Claim C3: decrypt on malformed input -/

/-- C3: the claim that `decrypt` returns an error on every input without
the `"*"` separator is refuted by the code: when the whole input is valid
base64 (so the first decode succeeds), the unguarded access to the second
piece of the split is a runtime index-out-of-range panic, not a returned
error. Evaluated here on the separator-free input `"AAAA"`. -/
theorem C3_decrypt_panics_without_separator :
    decrypt [1, 2, 3] ['A', 'A', 'A', 'A'] = .panicked "runtime error: index out of range" := by
  decide

/- ## JWT issuance and verification -/

/-- The claims carried in a token (`middleware.JWTclaims`): user id,
login and the registered expiry, as Unix seconds. -/
structure JWTclaims where
  ID : Int
  Login : String
  exp : Nat
deriving DecidableEq, Repr

/-- A signed token: the claims plus an HMAC-SHA256 signature over them.
The signature of the external jwt library is modelled symbolically as the
signed material itself paired with the secret, an idealized
collision-free MAC. -/
structure JWTtoken where
  id : Int
  login : String
  exp : Nat
  sig : String × Int × String × Nat
deriving DecidableEq, Repr

/-- Symbolic HMAC signature of the claims under the signing secret. -/
def signHMAC (jwtKey : String) (id : Int) (login : String) (exp : Nat) :
    String × Int × String × Nat :=
  (jwtKey, id, login, exp)

/-- `getJWT(jwtKey, id, login)`: a token whose expiry is 30 minutes after
issuance (`now`, in Unix seconds, made explicit), signed with the shared
secret. Signing with HS256 cannot fail, so the error return of the Go
function is never taken. -/
def getJWT (jwtKey : String) (id : Int) (login : String) (now : Nat) : JWTtoken :=
  { id := id, login := login, exp := now + 30 * 60,
    sig := signHMAC jwtKey id login (now + 30 * 60) }

/-- `verifyJWTandGetPayload(jwtKey, token)`: parse and verify, rejecting
a bad signature and an expired token (the jwt library rejects exactly
when the current time is after the expiry), returning the claims
otherwise. -/
def verifyJWTandGetPayload (jwtKey : String) (token : JWTtoken) (now : Nat) :
    Except String JWTclaims :=
  if token.sig ≠ signHMAC jwtKey token.id token.login token.exp then
    .error "JWT signature error"
  else if token.exp < now then
    .error "invalid JWT token"
  else
    .ok { ID := token.id, Login := token.login, exp := token.exp }

/- ## Claim C5: token issuance and verification -/

/-- C5: a token issued by `getJWT(k, u, l)` verifies under the same
secret within 30 minutes of issuance and yields exactly the issued id and
login; verification under any different secret fails; and verification of
any token whose expiry lies in the past fails. -/
theorem C5_jwt_verify (k k' : String) (u : Int) (l : String) (t now : Nat) (tok : JWTtoken)
    (hfresh : now ≤ t + 30 * 60) (hk : k' ≠ k) (hexp : tok.exp < now) :
    verifyJWTandGetPayload k (getJWT k u l t) now = .ok { ID := u, Login := l, exp := t + 30 * 60 }
    ∧ (∃ e, verifyJWTandGetPayload k' (getJWT k u l t) now = .error e)
    ∧ (∃ e, verifyJWTandGetPayload k tok now = .error e) := by
  refine ⟨?_, ?_, ?_⟩
  · unfold verifyJWTandGetPayload getJWT
    simp only [ne_eq, not_true_eq_false, if_false, ite_not, if_pos rfl]
    rw [if_neg (by simp; omega)]
  · refine ⟨"JWT signature error", ?_⟩
    unfold verifyJWTandGetPayload getJWT signHMAC
    rw [if_pos (by simp [Ne.symm hk])]
  · unfold verifyJWTandGetPayload
    by_cases hs : tok.sig ≠ signHMAC k tok.id tok.login tok.exp
    · exact ⟨"JWT signature error", by rw [if_pos hs]⟩
    · exact ⟨"invalid JWT token", by rw [if_neg hs, if_pos hexp]⟩

/-- C5 witness: issuance at time 1000 with secret `s`, verified at time
1500; the wrong secret `w` and a token already expired at 1500 both
rejected. -/
theorem C5_jwt_verify_witness :
    verifyJWTandGetPayload "s" (getJWT "s" 4 "alice" 1000) 1500
        = .ok { ID := 4, Login := "alice", exp := 1000 + 30 * 60 }
    ∧ (∃ e, verifyJWTandGetPayload "w" (getJWT "s" 4 "alice" 1000) 1500 = .error e)
    ∧ (∃ e, verifyJWTandGetPayload "s"
        { id := 9, login := "bob", exp := 10, sig := signHMAC "s" 9 "bob" 10 } 1500 = .error e) :=
  C5_jwt_verify "s" "w" 4 "alice" 1000 1500
    { id := 9, login := "bob", exp := 10, sig := signHMAC "s" 9 "bob" 10 }
    (by omega) (by decide) (by decide)

/- ## Domain model, proto responses and the repository -/

/-- `domain.Storage`: one stored record (the `Typ` field is the Go
`Type` field, renamed because `Type` is reserved in Lean). -/
structure StorageRec where
  ID : Int
  Name : String
  Typ : String
  Value : List Char
  Key : List Char
  Owner : Int
deriving DecidableEq, Repr

/-- Go `int32(x)` conversion (two's-complement wraparound). -/
def toInt32 (x : Int) : Int := (x + 2 ^ 31) % 2 ^ 32 - 2 ^ 31

/-- `proto.StorageUnit`. -/
structure StorageUnit where
  Id : Int
  Name : String
  Typ : String
  Owner : Int
deriving DecidableEq, Repr

/-- `proto.ReadAllRecordResponse`. -/
structure ReadAllRecordResponse where
  Units : List StorageUnit
  Error : String
deriving DecidableEq, Repr

/-- `proto.ReadRecordResponse`. -/
structure ReadRecordResponse where
  Name : String
  Typ : String
  Data : List Nat
  Error : String
deriving DecidableEq, Repr

/-- `proto.DeleteRecordResponse`. -/
structure DeleteRecordResponse where
  Error : String
deriving DecidableEq, Repr

/-- `proto.RegisterResponse`: `none` models the zero-value Jwt string. -/
structure RegisterResponse where
  Jwt : Option JWTtoken
  Error : String
deriving DecidableEq, Repr

/-- `proto.LoginResponse`. -/
structure LoginResponse where
  Jwt : Option JWTtoken
  Error : String
deriving DecidableEq, Repr

/-- Repository `ReadAllRecord(owner)`: the owner-scoped list query
selects only the `id`, `name` and `owner` columns, leaving the other
fields of each row at their zero values; zero rows is the `(nil, nil)`
return, modelled as `none`. -/
def repoReadAllRecord (db : List StorageRec) (owner : Int) : Option (List StorageRec) :=
  match (db.filter (fun r => r.Owner = owner)).map
    (fun r => { ID := r.ID, Name := r.Name, Owner := r.Owner,
                Typ := "", Value := [], Key := [] : StorageRec }) with
  | [] => none
  | docs => some docs

/-- Repository `ReadRecord(id, owner)`: the first row matching both the
id and the owner; `none` is the `(nil, nil)` not-found return. -/
def repoReadRecord (db : List StorageRec) (id owner : Int) : Option StorageRec :=
  db.find? (fun r => r.ID = id && r.Owner = owner)

/-- Modelled from the spec: the `services.StorageService` layer is not
under src/ (only its callers and the repository are); per the spec the
handlers invoke the relational store's owner-scoped list query directly,
so the service forwards the call unchanged. -/
def svcReadAllRecord (db : List StorageRec) (owner : Int) :
    Except String (Option (List StorageRec)) :=
  .ok (repoReadAllRecord db owner)

/-- Modelled from the spec: `services.StorageService` forwards the
owner-scoped single-record lookup to the store unchanged. -/
def svcReadRecord (db : List StorageRec) (id owner : Int) :
    Except String (Option StorageRec) :=
  .ok (repoReadRecord db id owner)

/- ## Unary handlers -/

/-- `StorageHandler.ReadAllRecord`: missing identity claim or a service
error populate the response's error field; otherwise the rows are copied
into units. The second component is the transport-level error returned
alongside the response, `none` being Go `nil`. The service outcome is a
parameter: `.error` a storage failure, `.ok none` the empty lookup,
`.ok (some rows)` data. -/
def readAllRecord (tokenOk : Bool) (svcResult : Except String (Option (List StorageRec))) :
    ReadAllRecordResponse × Option String :=
  if tokenOk = false then ({ Units := [], Error := "invalid token" }, none)
  else
    match svcResult with
    | .error _ => ({ Units := [], Error := "failed get all records" }, none)
    | .ok rec =>
      ({ Units := (rec.getD []).map (fun v =>
            { Id := toInt32 v.ID, Name := v.Name, Typ := v.Typ, Owner := toInt32 v.Owner }),
         Error := "" }, none)

/-- `StorageHandler.ReadRecord`: identity, lookup, not-found and
decryption failures populate the error field; on success the decrypted
data with name and kind. Wrapped in `GoRes` because `decryptionData` can
panic on a stored value without the separator. -/
def readRecord (tokenOk : Bool) (mk : List Nat)
    (svcResult : Except String (Option StorageRec)) :
    GoRes (ReadRecordResponse × Option String) :=
  if tokenOk = false then
    .ok ({ Name := "", Typ := "", Data := [], Error := "invalid token" }, none)
  else
    match svcResult with
    | .error _ => .ok ({ Name := "", Typ := "", Data := [], Error := "failed read record" }, none)
    | .ok none => .ok ({ Name := "", Typ := "", Data := [], Error := "record not found" }, none)
    | .ok (some rec) =>
      match decryptionData mk rec.Key rec.Value with
      | .err _ =>
        .ok ({ Name := "", Typ := "", Data := [], Error := "failed decrypt data" }, none)
      | .panicked m => .panicked m
      | .ok data => .ok ({ Name := rec.Name, Typ := rec.Typ, Data := data, Error := "" }, none)

/-- `StorageHandler.DeleteRecord`: deleting zero rows is not an error;
only an identity or storage failure populates the error field. -/
def deleteRecord (tokenOk : Bool) (svcResult : Except String Unit) :
    DeleteRecordResponse × Option String :=
  if tokenOk = false then ({ Error := "invalid token" }, none)
  else
    match svcResult with
    | .error _ => ({ Error := "failed delete record" }, none)
    | .ok _ => ({ Error := "" }, none)

/-- The composed list operation: handler over the pass-through service
over the repository, with the caller's identity as the owner. -/
def readAllRecordFull (db : List StorageRec) (owner : Int) : ReadAllRecordResponse × Option String :=
  readAllRecord true (svcReadAllRecord db owner)

/-- The composed read-one operation. -/
def readRecordFull (db : List StorageRec) (id owner : Int) (mk : List Nat) :
    GoRes (ReadRecordResponse × Option String) :=
  readRecord true mk (svcReadRecord db id owner)

/- ## User handlers -/

/-- A bcrypt hash, modelled symbolically: the hashed password together
with the random salt drawn by `GenerateFromPassword`;
`CompareHashAndPassword` succeeds exactly when the passwords match. -/
structure BcryptHash where
  pw : String
  salt : Nat
deriving DecidableEq, Repr

/-- Which collaborator calls `Register` performed. -/
structure RegisterEffects where
  hashed : Bool
  createCalled : Bool
deriving DecidableEq, Repr

/-- `UserHandler.Register`: empty login or password is rejected before
hashing and before the create-user call; a unique-violation create error
maps to the duplicate-user message; otherwise a token is issued. The
create outcome is a parameter: `.error true` a unique violation, `.error
false` any other storage error, `.ok (id, login)` the created user. -/
def register (login password : String) (_salt : Nat)
    (createResult : Except Bool (Int × String)) (now : Nat) (jwtKey : String) :
    RegisterResponse × Option String × RegisterEffects :=
  if login = "" ∨ password = "" then
    ({ Jwt := none, Error := "login or password incorrect" }, none,
     { hashed := false, createCalled := false })
  else
    match createResult with
    | .error isUnique =>
      ({ Jwt := none,
         Error := if isUnique then "this user exists" else "failed create user" }, none,
       { hashed := true, createCalled := true })
    | .ok (uid, ulogin) =>
      ({ Jwt := some (getJWT jwtKey uid ulogin now), Error := "" }, none,
       { hashed := true, createCalled := true })

/-- `UserHandler.Login`: storage failure, unknown user and a bcrypt
mismatch each populate the error field; otherwise a token is issued. -/
def loginHandler (password : String)
    (findResult : Except String (Option (Int × String × BcryptHash)))
    (now : Nat) (jwtKey : String) : LoginResponse × Option String :=
  match findResult with
  | .error _ => ({ Jwt := none, Error := "failed get user" }, none)
  | .ok none => ({ Jwt := none, Error := "user not found" }, none)
  | .ok (some (uid, ulogin, h)) =>
    if h.pw ≠ password then ({ Jwt := none, Error := "login or password incorrect" }, none)
    else ({ Jwt := some (getJWT jwtKey uid ulogin now), Error := "" }, none)

/- ## Claim C4: not-found behavior of list and read-one -/

/-- C4 counterexample: with an empty table and owner 1 the owner-scoped
lookup yields nothing, yet the list operation's response has an empty
error field and an empty unit list — not the explicit "not found"
business error the claim asserts for both operations (read-one does
return `"record not found"` on the same store). -/
theorem C4_list_empty_error_is_empty :
    (readAllRecordFull [] 1).1.Error = "" ∧ (readAllRecordFull [] 1).1.Units = []
    ∧ readRecordFull [] 1 1 [0] =
        .ok ({ Name := "", Typ := "", Data := [], Error := "record not found" }, none) := by
  decide

/-- C4 (amended): when the owner-scoped lookup yields nothing, the
read-one operation returns the explicit "record not found" business
error — identically whether the id does not exist or the record belongs
to a different owner — while the list operation returns an empty unit
list with an empty error field, not a "not found" error. -/
theorem C4_not_found_amended (db : List StorageRec) (id owner : Int) (mk : List Nat) :
    (repoReadRecord db id owner = none →
      readRecordFull db id owner mk
        = .ok ({ Name := "", Typ := "", Data := [], Error := "record not found" }, none))
    ∧ (db.filter (fun r => r.Owner = owner) = [] →
      readAllRecordFull db owner = ({ Units := [], Error := "" }, none)) := by
  constructor
  · intro hnone
    unfold readRecordFull readRecord svcReadRecord
    rw [hnone]
    rfl
  · intro hempty
    unfold readAllRecordFull readAllRecord svcReadAllRecord repoReadAllRecord
    rw [hempty]
    rfl

/-- C4 witness: the amended behavior evaluated on the empty store. -/
theorem C4_not_found_amended_witness :
    readRecordFull [] 1 1 [0]
        = .ok ({ Name := "", Typ := "", Data := [], Error := "record not found" }, none)
    ∧ readAllRecordFull [] 1 = ({ Units := [], Error := "" }, none) :=
  ⟨(C4_not_found_amended [] 1 1 [0]).1 (by decide),
   (C4_not_found_amended [] 1 1 [0]).2 (by decide)⟩

/- ## Claim C7: business failures never become transport failures -/

/-- C7: each unary handler — list, read-one, delete, register, login —
returns its response with a `nil` transport-level error, and whenever one
of the enumerated failures occurs (missing identity claim, storage error,
record not found, decryption error, bad credentials, empty credentials),
the response's error field is populated. -/
theorem C7_business_error_in_response :
    (∀ tokenOk svcResult, (readAllRecord tokenOk svcResult).2 = none
      ∧ ((tokenOk = false ∨ ∃ e, svcResult = .error e) →
          (readAllRecord tokenOk svcResult).1.Error ≠ ""))
    ∧ (∀ tokenOk mk svcResult,
        (∃ m, readRecord tokenOk mk svcResult = .panicked m)
        ∨ (∃ resp, readRecord tokenOk mk svcResult = .ok (resp, none)))
    ∧ (∀ tokenOk mk svcResult,
        (tokenOk = false ∨ (∃ e, svcResult = .error e) ∨ svcResult = .ok none
          ∨ (∃ rec e, svcResult = .ok (some rec)
              ∧ decryptionData mk rec.Key rec.Value = .err e)) →
        ∃ resp, readRecord tokenOk mk svcResult = .ok (resp, none) ∧ resp.Error ≠ "")
    ∧ (∀ tokenOk svcResult, (deleteRecord tokenOk svcResult).2 = none
      ∧ ((tokenOk = false ∨ ∃ e, svcResult = .error e) →
          (deleteRecord tokenOk svcResult).1.Error ≠ ""))
    ∧ (∀ login password salt createResult now jwtKey,
        (register login password salt createResult now jwtKey).2.1 = none
      ∧ ((login = "" ∨ password = "" ∨ ∃ b, createResult = .error b) →
          (register login password salt createResult now jwtKey).1.Error ≠ ""))
    ∧ (∀ password findResult now jwtKey,
        (loginHandler password findResult now jwtKey).2 = none
      ∧ (((∃ e, findResult = .error e) ∨ findResult = .ok none
            ∨ (∃ uid ulogin h, findResult = .ok (some (uid, ulogin, h)) ∧ h.pw ≠ password)) →
          (loginHandler password findResult now jwtKey).1.Error ≠ "")) := by
  refine ⟨?_, ?_, ?_, ?_, ?_, ?_⟩
  · intro tokenOk svc
    constructor
    · cases tokenOk
      · rfl
      · cases svc <;> rfl
    · rintro (rfl | ⟨e, rfl⟩)
      · simp [readAllRecord]
      · cases tokenOk <;> simp [readAllRecord]
  · intro tokenOk mk svc
    cases tokenOk
    · exact Or.inr ⟨_, rfl⟩
    · rcases svc with e | (_ | rec)
      · exact Or.inr ⟨_, rfl⟩
      · exact Or.inr ⟨_, rfl⟩
      · rcases hdec : decryptionData mk rec.Key rec.Value with d | e | m
        · exact Or.inr ⟨{ Name := rec.Name, Typ := rec.Typ, Data := d, Error := "" },
            by simp [readRecord, hdec]⟩
        · exact Or.inr ⟨{ Name := "", Typ := "", Data := [], Error := "failed decrypt data" },
            by simp [readRecord, hdec]⟩
        · exact Or.inl ⟨m, by simp [readRecord, hdec]⟩
  · intro tokenOk mk svc h
    by_cases htok : tokenOk = false
    · subst htok
      exact ⟨{ Name := "", Typ := "", Data := [], Error := "invalid token" },
        by simp [readRecord], by simp⟩
    · have htok' : tokenOk = true := by cases tokenOk <;> simp_all
      subst htok'
      rcases h with h | ⟨e, rfl⟩ | rfl | ⟨rec, e, rfl, hdec⟩
      · exact absurd h htok
      · exact ⟨{ Name := "", Typ := "", Data := [], Error := "failed read record" },
          by simp [readRecord], by simp⟩
      · exact ⟨{ Name := "", Typ := "", Data := [], Error := "record not found" },
          by simp [readRecord], by simp⟩
      · exact ⟨{ Name := "", Typ := "", Data := [], Error := "failed decrypt data" },
          by simp [readRecord, hdec], by simp⟩
  · intro tokenOk svc
    constructor
    · cases tokenOk
      · rfl
      · cases svc <;> rfl
    · rintro (rfl | ⟨e, rfl⟩)
      · simp [deleteRecord]
      · cases tokenOk <;> simp [deleteRecord]
  · intro login password salt createResult now jwtKey
    constructor
    · unfold register
      split
      · rfl
      · cases createResult <;> rfl
    · intro h
      by_cases hlp : login = "" ∨ password = ""
      · simp [register, hlp]
      · rcases h with h | h | ⟨b, rfl⟩
        · exact absurd (Or.inl h) hlp
        · exact absurd (Or.inr h) hlp
        · cases b <;> simp [register, hlp]
  · intro password findResult now jwtKey
    constructor
    · rcases findResult with e | (_ | ⟨uid, ulogin, hh⟩)
      · rfl
      · rfl
      · by_cases hp : hh.pw ≠ password <;> simp [loginHandler, hp]
    · rintro (⟨e, rfl⟩ | rfl | ⟨uid, ulogin, hh, rfl, hpw⟩)
      · simp [loginHandler]
      · simp [loginHandler]
      · simp [loginHandler, hpw]

/-- C7 witness: the list and delete handlers with a missing identity
claim, and register with a failing create-user call, all evaluated
concretely: transport error `nil`, error field populated. -/
theorem C7_business_error_in_response_witness :
    (readAllRecord false (.ok none)).2 = none
    ∧ (readAllRecord false (.ok none)).1.Error ≠ ""
    ∧ (deleteRecord true (.error "down")).1.Error ≠ ""
    ∧ (register "alice" "pw" 0 (.error false) 0 "k").1.Error ≠ "" :=
  ⟨(C7_business_error_in_response.1 false (.ok none)).1,
   (C7_business_error_in_response.1 false (.ok none)).2 (Or.inl rfl),
   (C7_business_error_in_response.2.2.2.1 true (.error "down")).2 (Or.inr ⟨"down", rfl⟩),
   (C7_business_error_in_response.2.2.2.2.1 "alice" "pw" 0 (.error false) 0 "k").2
     (Or.inr (Or.inr ⟨false, rfl⟩))⟩

/- ## Claim C9: register rejects empty credentials before any effect -/

/-- C9: when the login or the password is empty, `Register` returns the
business error without hashing the password and without calling the
create-user operation. -/
theorem C9_register_rejects_empty (login password : String) (salt : Nat)
    (createResult : Except Bool (Int × String)) (now : Nat) (jwtKey : String)
    (h : login = "" ∨ password = "") :
    register login password salt createResult now jwtKey
      = ({ Jwt := none, Error := "login or password incorrect" }, none,
         { hashed := false, createCalled := false }) := by
  unfold register
  rw [if_pos h]

/-- C9 witness: empty login with a would-succeed create outcome. -/
theorem C9_register_rejects_empty_witness :
    register "" "pw" 3 (.ok (1, "")) 0 "k"
      = ({ Jwt := none, Error := "login or password incorrect" }, none,
         { hashed := false, createCalled := false }) :=
  C9_register_rejects_empty "" "pw" 3 (.ok (1, "")) 0 "k" (Or.inl rfl)

/- ## Claim C10: the list operation never carries the stored kind -/

/-- C10: for every owner with at least one stored record, every unit in
the list returned by `ReadAllRecord` has an empty kind field, because the
owner-scoped query selects only the id, name and owner columns; the unit
count still matches the owner's rows. -/
theorem C10_list_kind_always_empty (db : List StorageRec) (owner : Int)
    (hx : db.filter (fun r => r.Owner = owner) ≠ []) :
    (readAllRecordFull db owner).1.Units.all (fun u => u.Typ == "") = true
    ∧ (readAllRecordFull db owner).1.Units.length
        = (db.filter (fun r => r.Owner = owner)).length := by
  unfold readAllRecordFull readAllRecord svcReadAllRecord repoReadAllRecord
  rcases hm : (db.filter (fun r => r.Owner = owner)).map
      (fun r => { ID := r.ID, Name := r.Name, Owner := r.Owner,
                  Typ := "", Value := [], Key := [] : StorageRec }) with _ | ⟨d, ds⟩
  · exact absurd (by simpa using congrArg List.length hm) (by simpa using hx)
  · simp only [hm]
    constructor
    · rw [List.all_eq_true]
      intro u hu
      rcases List.mem_map.mp hu with ⟨v, hv, rfl⟩
      have hv' : v ∈ (db.filter (fun r => r.Owner = owner)).map
          (fun r => { ID := r.ID, Name := r.Name, Owner := r.Owner,
                      Typ := "", Value := [], Key := [] : StorageRec }) := by
        rw [hm]; exact hv
      rcases List.mem_map.mp hv' with ⟨w, _, rfl⟩
      rfl
    · have := congrArg List.length hm
      simpa using this.symm

/-- Concrete store for the list-operation witness: owner 2 holds one
record whose stored kind is `"text"`. -/
def wDB : List StorageRec :=
  [{ ID := 1, Name := "note", Typ := "text", Value := ['v'], Key := ['k'], Owner := 2 }]

/-- C10 witness: the single listed unit of owner 2 has an empty kind even
though the stored record's kind is `"text"`. -/
theorem C10_list_kind_always_empty_witness :
    (readAllRecordFull wDB 2).1.Units.all (fun u => u.Typ == "") = true
    ∧ (readAllRecordFull wDB 2).1.Units.length
        = (wDB.filter (fun r => r.Owner = 2)).length :=
  C10_list_kind_always_empty wDB 2 (by decide)

/- ## The streaming WriteRecord handler -/

/-- One `stream.Recv()` outcome: a received chunk (name, kind, data) or
a non-EOF receive error; the end of the trace is EOF. -/
inductive RecvEvent where
  | chunk (name typ : String) (data : List Nat)
  | errRecv
deriving DecidableEq, Repr

/-- The observable execution of one `WriteRecord` call: the response
error string, the accumulated metadata and buffer, how many times
`SendAndClose` was invoked, the buffer passed to `encryptionData`, and
the record passed to the storage write (if reached). -/
structure WriteExec where
  respError : String
  fileName : String
  fileType : String
  buffer : List Nat
  sendCount : Nat
  encArg : Option (List Nat)
  persistArg : Option StorageRec
deriving DecidableEq, Repr

/-- The receive loop of `WriteRecord`. On a receive error the handler
sends the error response but — lacking a `return` — falls through to the
chunk-processing statements with a nil chunk (whose protobuf getters
yield zero values) and keeps looping. -/
def writeLoop : List RecvEvent → WriteExec → WriteExec
  | [], st => st
  | .errRecv :: rest, st =>
    writeLoop rest { st with respError := "failed recive chunk", sendCount := st.sendCount + 1 }
  | .chunk name typ data :: rest, st =>
    writeLoop rest
      { st with
        fileName := if st.fileName = "" then name else st.fileName,
        fileType := if st.fileType = "" then typ else st.fileType,
        buffer := st.buffer ++ data }

/-- The tail of `WriteRecord` after encryption: build the record (with
the owner taken from the identity claim, zero-valued when the claim was
missing), call the storage write, then send the final response. On a
storage error the handler sends the error response and — lacking a
`return` — still reaches the final `SendAndClose`. -/
def finishWrite (st : WriteExec) (ownerID : Int) (data key : List Char)
    (persistOutcome : Except Unit Unit) : WriteExec :=
  let unit : StorageRec :=
    { ID := 0, Name := st.fileName, Typ := st.fileType,
      Value := data, Key := key, Owner := ownerID }
  let st1 := { st with persistArg := some unit }
  let st2 :=
    match persistOutcome with
    | .error _ => { st1 with respError := "failed write record", sendCount := st1.sendCount + 1 }
    | .ok _ => st1
  { st2 with sendCount := st2.sendCount + 1 }

/-- The state before the receive loop: a missing identity claim has
already sent the error response once (the handler then falls through,
lacking a `return`). -/
def writeInit (tokenOk : Bool) : WriteExec :=
  if tokenOk = false then
    { respError := "invalid token", fileName := "", fileType := "", buffer := [],
      sendCount := 1, encArg := none, persistArg := none }
  else
    { respError := "", fileName := "", fileType := "", buffer := [],
      sendCount := 0, encArg := none, persistArg := none }

/-- The encryption stage of `WriteRecord`: the accumulated buffer goes to
`encryptionData`; on an encryption error the handler sends the error
response and — lacking a `return` — still builds and persists a record
with zero-valued ciphertext fields. -/
def writeAfterLoop (st2 : WriteExec) (ownerID : Int) (mk rkey n1 n2 : List Nat)
    (persistOutcome : Except Unit Unit) : GoRes WriteExec :=
  match encryptionData mk st2.buffer rkey n1 n2 with
  | .panicked m => .panicked m
  | .err _ =>
    .ok (finishWrite
      { st2 with encArg := some st2.buffer,
                 respError := "failed encrypt data", sendCount := st2.sendCount + 1 }
      ownerID [] [] persistOutcome)
  | .ok (data, key) =>
    .ok (finishWrite { st2 with encArg := some st2.buffer } ownerID data key persistOutcome)

/-- `StorageHandler.WriteRecord` over one stream: `tokenOk` is whether
the identity claim was present (a missing claim sends the error response
but, lacking a `return`, execution continues with a zero-valued claim),
`events` the finite receive trace, the random draws of `encryptionData`
explicit, and `persistOutcome` the storage write result. The result is
the execution trace; `.panicked` is unreachable for well-formed random
draws. -/
def writeRecord (tokenOk : Bool) (tokenID : Int) (events : List RecvEvent)
    (mk rkey n1 n2 : List Nat) (persistOutcome : Except Unit Unit) : GoRes WriteExec :=
  writeAfterLoop (writeLoop events (writeInit tokenOk))
    (if tokenOk = false then 0 else tokenID) mk rkey n1 n2 persistOutcome

/- ## Claim C2: error handling of the streaming write -/

/-- View of a completed `WriteRecord` execution: how many times
`SendAndClose` ran, the buffer handed to encryption, and the owner of the
record handed to the storage write. -/
def goResView (r : GoRes WriteExec) : Option (Nat × Option (List Nat) × Option Int) :=
  match r with
  | .ok st => some (st.sendCount, st.encArg, st.persistArg.map (fun u => u.Owner))
  | _ => none

/-- C2: the claim that a failed stage sends the single error response and
closes the stream exactly once, with no later stage running, is refuted
by the code: the error branches lack `return` statements. Evaluated on
the execution whose identity claim is missing and whose stream is empty
(with the master key `wMK` and success of storage): `SendAndClose` is
invoked twice, encryption still runs on the (empty) buffer, and a record
with zero-valued owner is passed to the storage write. -/
theorem C2_writeRecord_double_close :
    goResView (writeRecord false 7 [] wMK wRK wN1 wN2 (.ok ()))
      = some (2, some [], some 0) := by
  decide

/- ## Claim C6: error-free streaming upload -/

/-- Chunk list as a receive trace (name, kind, data per chunk). -/
def chunkEvents (cs : List (String × String × List Nat)) : List RecvEvent :=
  cs.map (fun c => .chunk c.1 c.2.1 c.2.2)

/-- The first non-empty string of a list, or `""`. -/
def firstNonEmptyStr (l : List String) : String :=
  (l.find? (fun s => s != "")).getD ""

theorem foldl_first_stable :
    ∀ (l : List String) (a : String), a ≠ "" →
      l.foldl (fun acc s => if acc = "" then s else acc) a = a
  | [], _, _ => rfl
  | s :: l, a, ha => by
    rw [List.foldl_cons, if_neg ha]
    exact foldl_first_stable l a ha

theorem foldl_first_nonEmpty :
    ∀ l : List String,
      l.foldl (fun acc s => if acc = "" then s else acc) "" = firstNonEmptyStr l
  | [] => rfl
  | s :: l => by
    rw [List.foldl_cons, if_pos rfl]
    by_cases hs : s = ""
    · subst hs
      rw [foldl_first_nonEmpty l]
      unfold firstNonEmptyStr
      rw [List.find?_cons_of_neg _ (by simp)]
    · rw [foldl_first_stable l s hs]
      unfold firstNonEmptyStr
      rw [List.find?_cons_of_pos _ (by simp [hs])]
      rfl

/-- The receive loop on a pure chunk trace accumulates the concatenated
data and keeps the first non-empty name and kind (folding from the
incoming state). -/
theorem writeLoop_chunks :
    ∀ (cs : List (String × String × List Nat)) (st : WriteExec),
      writeLoop (chunkEvents cs) st =
        { st with
          fileName := cs.foldl (fun acc c => if acc = "" then c.1 else acc) st.fileName,
          fileType := cs.foldl (fun acc c => if acc = "" then c.2.1 else acc) st.fileType,
          buffer := st.buffer ++ (cs.map (fun c => c.2.2)).flatten }
  | [], st => by simp [chunkEvents, writeLoop]
  | c :: cs, st => by
    show writeLoop (.chunk c.1 c.2.1 c.2.2 :: chunkEvents cs) st = _
    rw [writeLoop, writeLoop_chunks cs]
    simp [List.append_assoc]

/-- C6: for every error-free upload of a non-empty chunk sequence — of
any length and total size, no cap being enforced — the buffer passed to
encryption is the concatenation of the chunks' data in arrival order, the
persisted record carries the first non-empty name and first non-empty
kind seen across the chunks together with the encryption output and the
caller as owner, and the stream is closed exactly once. -/
theorem C6_streaming_upload (cs : List (String × String × List Nat)) (tokenID : Int)
    (mk rkey n1 n2 : List Nat) (d k : List Char)
    (_hne : cs ≠ [])
    (henc : encryptionData mk ((cs.map (fun c => c.2.2)).flatten) rkey n1 n2 = .ok (d, k)) :
    writeRecord true tokenID (chunkEvents cs) mk rkey n1 n2 (.ok ()) =
      .ok { respError := "",
            fileName := firstNonEmptyStr (cs.map (fun c => c.1)),
            fileType := firstNonEmptyStr (cs.map (fun c => c.2.1)),
            buffer := (cs.map (fun c => c.2.2)).flatten,
            sendCount := 1,
            encArg := some ((cs.map (fun c => c.2.2)).flatten),
            persistArg := some
              { ID := 0, Name := firstNonEmptyStr (cs.map (fun c => c.1)),
                Typ := firstNonEmptyStr (cs.map (fun c => c.2.1)),
                Value := d, Key := k, Owner := tokenID } } := by
  have hname : cs.foldl (fun acc c => if acc = "" then c.1 else acc) ""
      = firstNonEmptyStr (cs.map (fun c => c.1)) := by
    rw [← foldl_first_nonEmpty, List.foldl_map]
  have htyp : cs.foldl (fun acc c => if acc = "" then c.2.1 else acc) ""
      = firstNonEmptyStr (cs.map (fun c => c.2.1)) := by
    rw [← foldl_first_nonEmpty, List.foldl_map]
  have hinit : writeInit true =
      ({ respError := "", fileName := "", fileType := "", buffer := [],
         sendCount := 0, encArg := none, persistArg := none } : WriteExec) := rfl
  unfold writeRecord
  rw [hinit, writeLoop_chunks cs]
  unfold writeAfterLoop
  simp only [List.nil_append, henc, hname, htyp]
  unfold finishWrite
  rfl

/-- The concrete (ciphertext, wrapped key) pair for the buffered upload
of `abcdef`. -/
def wEnc6 : List Char × List Char :=
  match encryptionData wMK [97, 98, 99, 100, 101, 102] wRK wN1 wN2 with
  | .ok pr => pr
  | _ => ([], [])

/-- C6 witness: uploading `abc` and `def` as two chunks with name `n` and
kind `text` buffers `abcdef`, closes the stream once, and persists the
encrypted record for owner 7. -/
theorem C6_streaming_upload_witness :
    writeRecord true 7
        (chunkEvents [("n", "text", [97, 98, 99]), ("", "", [100, 101, 102])])
        wMK wRK wN1 wN2 (.ok ()) =
      .ok { respError := "",
            fileName := firstNonEmptyStr ["n", ""],
            fileType := firstNonEmptyStr ["text", ""],
            buffer := [97, 98, 99, 100, 101, 102],
            sendCount := 1,
            encArg := some [97, 98, 99, 100, 101, 102],
            persistArg := some
              { ID := 0, Name := firstNonEmptyStr ["n", ""],
                Typ := firstNonEmptyStr ["text", ""],
                Value := wEnc6.1, Key := wEnc6.2, Owner := 7 } } := by
  have h := C6_streaming_upload
    [("n", "text", [97, 98, 99]), ("", "", [100, 101, 102])] 7 wMK wRK wN1 wN2
    wEnc6.1 wEnc6.2 (by decide) (by decide)
  exact h

end GophKeeper
